import Mathlib

/-!
Verification of the cart / catalog / order-ledger logic of the
grocery-ordering voice agent (backend/src/agent.py).

The four tool functions `add_to_cart`, `remove_from_cart`, `place_order`
and `ingredients_for` are embedded as pure Lean functions over explicit
session state.  Python `str.lower` is modelled by `pyLower` (per-character
lowercasing; the data handled by the agent is ASCII), `str.strip` by
`pyStrip`, Python numbers by `Int` (quantities) and `ℚ` (prices; the code
converts catalog prices with `float(...)`, modelled as the identity on ℚ),
and Python `round(x, 2)` by `round2` below.  The order ledger file is
modelled as the list of orders it holds; the current clock
(`int(datetime.now().timestamp())`) and the ISO timestamp string are
passed in as explicit parameters.
-/

/-- Python `s.lower()`: lowercase every character. -/
def pyLower (s : String) : String := ⟨s.data.map Char.toLower⟩

/-- Python `s.strip()`: drop leading and trailing whitespace. -/
def pyStrip (s : String) : String :=
  ⟨((s.data.dropWhile Char.isWhitespace).reverse.dropWhile
      Char.isWhitespace).reverse⟩

/-- A record of catalog.json: `{name, price}`. -/
structure CatalogItem where
  name : String
  price : ℚ
deriving Repr, DecidableEq

/-- `@dataclass class CartItem: name: str; quantity: int; price: float`. -/
structure CartItem where
  name : String
  quantity : Int
  price : ℚ
deriving Repr, DecidableEq

/-- `@dataclass class Order`: order_id, timestamp, items, total, status
(default `"received"`). -/
structure Order where
  order_id : String
  timestamp : String
  items : List CartItem
  total : ℚ
  status : String
deriving Repr, DecidableEq

/-- Python `round(q, 2)`: round to 2 decimal places. -/
def round2 (q : ℚ) : ℚ :=
  ((round (q * 100) : ℤ) : ℚ) / 100

/-- The `for ci in ctx.userdata.cart` loop of `add_to_cart`: on the first
cart line whose lowered name equals `name` it increments the quantity in
place and returns the `UPDATED` status; `none` means the loop fell
through (no cart line matches). -/
def addLoop (name : String) (q : Int) : List CartItem → Option (String × List CartItem)
  | [] => none
  | ci :: rest =>
    if pyLower ci.name == name then
      some ("UPDATED|" ++ ci.name ++ "|" ++ toString (ci.quantity + q),
            { ci with quantity := ci.quantity + q } :: rest)
    else
      (addLoop name q rest).map (fun r => (r.1, ci :: r.2))

/-- `add_to_cart(ctx, item_name, quantity)`: returns the status string and
the cart after the call (the Python code mutates `ctx.userdata.cart`). -/
def add_to_cart (catalog : List CatalogItem) (cart : List CartItem)
    (item_name : String) (quantity : Int) : String × List CartItem :=
  let name := pyLower item_name
  match catalog.find? (fun x => pyLower x.name == name) with
  | none => ("NOT_FOUND", cart)
  | some item =>
    match addLoop name quantity cart with
    | some r => r
    | none =>
      ("ADDED|" ++ item.name ++ "|" ++ toString quantity,
       cart ++ [CartItem.mk item.name quantity item.price])

/-- `remove_from_cart(ctx, item_name)`: filters out every cart line whose
lowered name equals the lowered argument and reports `REMOVED` exactly
when the cart shrank. -/
def remove_from_cart (cart : List CartItem) (item_name : String) :
    String × List CartItem :=
  let name := pyLower item_name
  let newCart := cart.filter (fun x => !(pyLower x.name == name))
  ((if newCart.length < cart.length then "REMOVED" else "NOT_FOUND"), newCart)

/-- Result of `place_order`: the returned status string, the cart after
the call, and the contents of orders.json after the call. -/
structure PlaceResult where
  status : String
  cart : List CartItem
  ledger : List Order
deriving Repr, DecidableEq

/-- `place_order(ctx)`: `ledger` is the current contents of orders.json,
`now` the unix-seconds clock reading, `ts` the ISO timestamp string. -/
def place_order (cart : List CartItem) (ledger : List Order)
    (now : Nat) (ts : String) : PlaceResult :=
  match cart with
  | [] => ⟨"EMPTY", cart, ledger⟩
  | _ =>
    let total : ℚ := (cart.map (fun x => x.price * (x.quantity : ℚ))).sum
    let new_order : Order :=
      ⟨"ORD-" ++ toString now, ts, cart, round2 total, "received"⟩
    ⟨"PLACED|" ++ new_order.order_id ++ "|" ++ toString new_order.total,
     [], ledger ++ [new_order]⟩

/-- The static `RECIPES` dict of `ingredients_for`. -/
def RECIPES : List (String × List String) :=
  [("peanut butter sandwich", ["bread", "peanut butter"]),
   ("pasta", ["pasta", "pasta sauce"]),
   ("tea", ["tea powder", "milk", "sugar"])]

/-- `ingredients_for(ctx, dish_name)`: lowercases and strips the dish
name, looks it up in `RECIPES`, and encodes the ingredient list as
`"ING|" + "|".join(...)`. -/
def ingredients_for (dish_name : String) : String :=
  let dish := pyStrip (pyLower dish_name)
  match RECIPES.find? (fun p => p.1 == dish) with
  | none => "NO_RECIPE"
  | some p => "ING|" ++ String.intercalate "|" p.2

/-- Session cart states reachable from the empty cart by any sequence of
`add_to_cart`, `remove_from_cart` and `place_order` tool calls (the catalog
is reloaded on every `add_to_cart` call, so it may differ between calls). -/
inductive SessionReach : List CartItem → Prop where
| empty : SessionReach []
| add (catalog : List CatalogItem) (c : List CartItem) (s : String) (q : Int) :
    SessionReach c → SessionReach (add_to_cart catalog c s q).2
| remove (c : List CartItem) (s : String) :
    SessionReach c → SessionReach (remove_from_cart c s).2
| place (c : List CartItem) (ledger : List Order) (now : Nat) (ts : String) :
    SessionReach c → SessionReach (place_order c ledger now ts).cart

/-- Cart states reachable from the empty cart by `add_to_cart` and
`remove_from_cart` calls against one fixed catalog. -/
inductive CartReach (catalog : List CatalogItem) : List CartItem → Prop where
| empty : CartReach catalog []
| add (c : List CartItem) (s : String) (q : Int) :
    CartReach catalog c → CartReach catalog (add_to_cart catalog c s q).2
| remove (c : List CartItem) (s : String) :
    CartReach catalog c → CartReach catalog (remove_from_cart c s).2
theorem addLoop_eq_none_iff (name : String) (q : Int) (cart : List CartItem) :
    addLoop name q cart = none ↔ ∀ ci ∈ cart, pyLower ci.name ≠ name := by
  induction cart with
  | nil => simp [addLoop]
  | cons ci rest ih =>
    by_cases h : pyLower ci.name = name
    · simp [addLoop, h]
    · simp [addLoop, h, Option.map_eq_none', ih]

theorem addLoop_append_match (name : String) (q : Int) (pre : List CartItem)
    (ci : CartItem) (post : List CartItem)
    (hpre : ∀ cj ∈ pre, pyLower cj.name ≠ name)
    (hci : pyLower ci.name = name) :
    addLoop name q (pre ++ ci :: post) =
      some ("UPDATED|" ++ ci.name ++ "|" ++ toString (ci.quantity + q),
            pre ++ { ci with quantity := ci.quantity + q } :: post) := by
  induction pre with
  | nil => simp [addLoop, hci]
  | cons cj rest ih =>
    have hcj : pyLower cj.name ≠ name := hpre cj (by simp)
    have ihr := ih (fun x hx => hpre x (by simp [hx]))
    simp [addLoop, hcj, ihr]

theorem addLoop_eq_some (name : String) (q : Int) (cart : List CartItem)
    (r : String × List CartItem) (h : addLoop name q cart = some r) :
    ∃ pre ci post, cart = pre ++ ci :: post ∧
      (∀ cj ∈ pre, pyLower cj.name ≠ name) ∧ pyLower ci.name = name ∧
      r = ("UPDATED|" ++ ci.name ++ "|" ++ toString (ci.quantity + q),
           pre ++ { ci with quantity := ci.quantity + q } :: post) := by
  induction cart generalizing r with
  | nil => simp [addLoop] at h
  | cons ci rest ih =>
    by_cases hm : pyLower ci.name = name
    · refine ⟨[], ci, rest, by simp, by simp, hm, ?_⟩
      simp [addLoop, hm] at h
      simp [← h]
    · simp only [addLoop, beq_iff_eq, if_neg hm, Option.map_eq_some'] at h
      obtain ⟨r0, hr0, hr⟩ := h
      obtain ⟨pre, cj, post, hcart, hpre, hcj, hr0eq⟩ := ih r0 hr0
      refine ⟨ci :: pre, cj, post, by simp [hcart], ?_, hcj, ?_⟩
      · intro x hx
        rcases List.mem_cons.mp hx with rfl | hx
        · exact hm
        · exact hpre x hx
      · simp [← hr, hr0eq]

theorem add_to_cart_not_found (catalog : List CatalogItem) (cart : List CartItem)
    (item_name : String) (quantity : Int)
    (h : ∀ e ∈ catalog, pyLower e.name ≠ pyLower item_name) :
    add_to_cart catalog cart item_name quantity = ("NOT_FOUND", cart) := by
  have hf : catalog.find? (fun x => pyLower x.name == pyLower item_name) = none := by
    rw [List.find?_eq_none]
    simpa using h
  simp [add_to_cart, hf]

theorem add_to_cart_updated (catalog : List CatalogItem)
    (item_name : String) (quantity : Int) (item : CatalogItem)
    (hfind : catalog.find? (fun x => pyLower x.name == pyLower item_name) = some item)
    (pre : List CartItem) (ci : CartItem) (post : List CartItem)
    (hpre : ∀ cj ∈ pre, pyLower cj.name ≠ pyLower item_name)
    (hci : pyLower ci.name = pyLower item_name) :
    add_to_cart catalog (pre ++ ci :: post) item_name quantity =
      ("UPDATED|" ++ ci.name ++ "|" ++ toString (ci.quantity + quantity),
       pre ++ { ci with quantity := ci.quantity + quantity } :: post) := by
  simp [add_to_cart, hfind, addLoop_append_match _ _ pre ci post hpre hci]

theorem add_to_cart_added (catalog : List CatalogItem) (cart : List CartItem)
    (item_name : String) (quantity : Int) (item : CatalogItem)
    (hfind : catalog.find? (fun x => pyLower x.name == pyLower item_name) = some item)
    (hcart : ∀ ci ∈ cart, pyLower ci.name ≠ pyLower item_name) :
    add_to_cart catalog cart item_name quantity =
      ("ADDED|" ++ item.name ++ "|" ++ toString quantity,
       cart ++ [CartItem.mk item.name quantity item.price]) := by
  have hl : addLoop (pyLower item_name) quantity cart = none :=
    (addLoop_eq_none_iff _ _ _).mpr hcart
  simp [add_to_cart, hfind, hl]

/-- C1: `add_to_cart` returns `NOT_FOUND` and leaves the cart unchanged when
no catalog entry matches the lowered item name; when a catalog entry matches
and some cart line matches, the first matching line has its quantity
incremented (all other lines unchanged) and an `UPDATED` status carries the
new quantity; when a catalog entry matches and no cart line does, a new line
with the given quantity and the catalog price is appended and an `ADDED`
status is returned. -/
theorem add_to_cart_spec (catalog : List CatalogItem) (cart : List CartItem)
    (item_name : String) (quantity : Int) :
    ((∀ e ∈ catalog, pyLower e.name ≠ pyLower item_name) →
      add_to_cart catalog cart item_name quantity = ("NOT_FOUND", cart)) ∧
    (∀ item,
      catalog.find? (fun e => pyLower e.name == pyLower item_name) = some item →
      ((∀ pre ci post, cart = pre ++ ci :: post →
          (∀ cj ∈ pre, pyLower cj.name ≠ pyLower item_name) →
          pyLower ci.name = pyLower item_name →
          add_to_cart catalog cart item_name quantity =
            ("UPDATED|" ++ ci.name ++ "|" ++ toString (ci.quantity + quantity),
             pre ++ { ci with quantity := ci.quantity + quantity } :: post)) ∧
       ((∀ ci ∈ cart, pyLower ci.name ≠ pyLower item_name) →
          add_to_cart catalog cart item_name quantity =
            ("ADDED|" ++ item.name ++ "|" ++ toString quantity,
             cart ++ [CartItem.mk item.name quantity item.price])))) := by
  refine ⟨add_to_cart_not_found catalog cart item_name quantity, ?_⟩
  intro item hfind
  constructor
  · intro pre ci post hcart hpre hci
    subst hcart
    exact add_to_cart_updated catalog item_name quantity item hfind pre ci post hpre hci
  · exact add_to_cart_added catalog cart item_name quantity item hfind

theorem add_to_cart_spec_witness :
    add_to_cart [⟨"Milk", 10⟩] [⟨"Milk", 2, 10⟩] "MILK" 3
      = ("UPDATED|Milk|5", [⟨"Milk", 5, 10⟩]) := by
  have h := (add_to_cart_spec [⟨"Milk", 10⟩] [⟨"Milk", 2, 10⟩] "MILK" 3).2
    ⟨"Milk", 10⟩ rfl
  exact h.1 [] ⟨"Milk", 2, 10⟩ [] rfl (by simp) rfl

theorem remove_filter_length_lt_iff (cart : List CartItem) (name : String) :
    (cart.filter (fun x => !(pyLower x.name == name))).length < cart.length ↔
      ∃ x ∈ cart, pyLower x.name = name := by
  have hs : List.Sublist (cart.filter (fun x => !(pyLower x.name == name))) cart :=
    List.filter_sublist cart
  constructor
  · intro h
    by_contra hno
    push_neg at hno
    have heq : cart.filter (fun x => !(pyLower x.name == name)) = cart := by
      rw [List.filter_eq_self]
      intro a ha
      simpa using hno a ha
    rw [heq] at h
    exact lt_irrefl _ h
  · rintro ⟨x, hx, hxeq⟩
    rcases lt_or_eq_of_le hs.length_le with h | h
    · exact h
    · exfalso
      have heq := hs.eq_of_length h
      have hxf : x ∈ cart.filter (fun x => !(pyLower x.name == name)) := by
        rw [heq]; exact hx
      have := List.of_mem_filter hxf
      simp [hxeq] at this

/-- C4: `remove_from_cart` removes exactly the cart lines whose lowered name
equals the lowered argument, keeping every other line in order; it returns
`REMOVED` when at least one line matched, and otherwise returns `NOT_FOUND`
with the cart unchanged. -/
theorem remove_from_cart_spec (cart : List CartItem) (item_name : String) :
    ((∃ x ∈ cart, pyLower x.name = pyLower item_name) →
      (remove_from_cart cart item_name).1 = "REMOVED") ∧
    ((∀ x ∈ cart, pyLower x.name ≠ pyLower item_name) →
      remove_from_cart cart item_name = ("NOT_FOUND", cart)) ∧
    (remove_from_cart cart item_name).2 =
      cart.filter (fun x => !(pyLower x.name == pyLower item_name)) ∧
    ∀ x ∈ (remove_from_cart cart item_name).2, pyLower x.name ≠ pyLower item_name := by
  refine ⟨?_, ?_, rfl, ?_⟩
  · intro hex
    have h := (remove_filter_length_lt_iff cart (pyLower item_name)).mpr hex
    simp [remove_from_cart, h]
  · intro hno
    have heq : cart.filter (fun x => !(pyLower x.name == pyLower item_name)) = cart := by
      rw [List.filter_eq_self]
      intro a ha
      simpa using hno a ha
    have hlt : ¬ (cart.filter (fun x => !(pyLower x.name == pyLower item_name))).length
        < cart.length := by
      rw [heq]
      exact lt_irrefl _
    simp [remove_from_cart, hlt, heq]
  · intro x hx
    have := List.of_mem_filter hx
    simpa using this

theorem remove_from_cart_spec_witness :
    remove_from_cart [CartItem.mk "Milk" 2 10] "bread"
      = ("NOT_FOUND", [CartItem.mk "Milk" 2 10]) := by
  have h := (remove_from_cart_spec [CartItem.mk "Milk" 2 10] "bread").2.1
  exact h (by simp [pyLower])

/-- Behaviour of `place_order` on a non-empty cart. -/
theorem place_order_nonempty (cart : List CartItem) (ledger : List Order)
    (now : Nat) (ts : String) (h : cart ≠ []) :
    ∃ o : Order,
      (place_order cart ledger now ts).ledger = ledger ++ [o] ∧
      o.total = round2 ((cart.map (fun x => x.price * (x.quantity : ℚ))).sum) ∧
      o.order_id = "ORD-" ++ toString now ∧
      o.items = cart ∧
      (place_order cart ledger now ts).status =
        "PLACED|" ++ o.order_id ++ "|" ++ toString o.total ∧
      (place_order cart ledger now ts).cart = [] := by
  match cart, h with
  | ci :: rest, _ =>
    exact ⟨_, rfl, rfl, rfl, rfl, rfl, rfl⟩

/-- C2: placing a non-empty cart appends exactly one order record to the
ledger; its total is the 2-decimal rounding of the sum of price×quantity
over the cart lines, its id is `ORD-<unix seconds>` and is the id carried
by the returned `PLACED` status together with that total, and the cart is
empty afterwards. -/
theorem place_order_spec (cart : List CartItem) (ledger : List Order)
    (now : Nat) (ts : String) (h : cart ≠ []) :
    ∃ o : Order,
      (place_order cart ledger now ts).ledger = ledger ++ [o] ∧
      o.total = round2 ((cart.map (fun x => x.price * (x.quantity : ℚ))).sum) ∧
      o.order_id = "ORD-" ++ toString now ∧
      o.items = cart ∧
      (place_order cart ledger now ts).status =
        "PLACED|" ++ o.order_id ++ "|" ++ toString o.total ∧
      (place_order cart ledger now ts).cart = [] :=
  place_order_nonempty cart ledger now ts h

theorem place_order_spec_witness :
    ∃ o : Order,
      (place_order [CartItem.mk "Milk" 3 10] [] 5 "t").ledger = [] ++ [o] ∧
      o.total = round2 (([CartItem.mk "Milk" 3 10].map
        (fun x => x.price * (x.quantity : ℚ))).sum) ∧
      o.order_id = "ORD-" ++ toString (5 : Nat) ∧
      o.items = [CartItem.mk "Milk" 3 10] ∧
      (place_order [CartItem.mk "Milk" 3 10] [] 5 "t").status =
        "PLACED|" ++ o.order_id ++ "|" ++ toString o.total ∧
      (place_order [CartItem.mk "Milk" 3 10] [] 5 "t").cart = [] :=
  place_order_spec [CartItem.mk "Milk" 3 10] [] 5 "t" (by simp)

/-- C3: placing an order with an empty cart returns `EMPTY`, leaves the
ledger exactly as it was, and the cart stays empty. -/
theorem place_order_empty_spec (ledger : List Order) (now : Nat) (ts : String) :
    place_order [] ledger now ts = ⟨"EMPTY", [], ledger⟩ :=
  rfl

/-- C7: `ingredients_for` matches the lowered, stripped dish name against
the static `RECIPES` table, returning `NO_RECIPE` when absent and the
encoded ordered ingredient list when present (it never touches the cart);
in particular pasta yields `["pasta", "pasta sauce"]` and sushi yields
`NO_RECIPE`. -/
theorem ingredients_for_spec :
    (∀ dish_name,
      RECIPES.find? (fun p => p.1 == pyStrip (pyLower dish_name)) = none →
        ingredients_for dish_name = "NO_RECIPE") ∧
    (∀ dish_name p,
      RECIPES.find? (fun p => p.1 == pyStrip (pyLower dish_name)) = some p →
        ingredients_for dish_name = "ING|" ++ String.intercalate "|" p.2) ∧
    ingredients_for "pasta" = "ING|" ++ String.intercalate "|" ["pasta", "pasta sauce"] ∧
    ingredients_for "sushi" = "NO_RECIPE" := by
  refine ⟨?_, ?_, rfl, rfl⟩
  · intro d hd
    simp [ingredients_for, hd]
  · intro d p hp
    simp [ingredients_for, hp]

theorem ingredients_for_spec_witness :
    ingredients_for "  PASTA " = "ING|" ++ String.intercalate "|" ["pasta", "pasta sauce"] ∧
    ingredients_for "sushi" = "NO_RECIPE" :=
  ⟨ingredients_for_spec.2.1 "  PASTA " ("pasta", ["pasta", "pasta sauce"]) rfl,
   ingredients_for_spec.2.2.2⟩

/-- C8: when the item is in the catalog, `add_to_cart` performs no
validation of the quantity: for every integer quantity, zero and negative
included, it either increments the first matching cart line by exactly that
quantity with an `UPDATED` status, or appends a line carrying exactly that
quantity with an `ADDED` status. -/
theorem add_to_cart_no_quantity_validation (catalog : List CatalogItem)
    (cart : List CartItem) (item_name : String) (quantity : Int)
    (item : CatalogItem)
    (hfind : catalog.find? (fun e => pyLower e.name == pyLower item_name) = some item) :
    (∃ pre ci post, cart = pre ++ ci :: post ∧
      (∀ cj ∈ pre, pyLower cj.name ≠ pyLower item_name) ∧
      pyLower ci.name = pyLower item_name ∧
      add_to_cart catalog cart item_name quantity =
        ("UPDATED|" ++ ci.name ++ "|" ++ toString (ci.quantity + quantity),
         pre ++ { ci with quantity := ci.quantity + quantity } :: post)) ∨
    ((∀ ci ∈ cart, pyLower ci.name ≠ pyLower item_name) ∧
      add_to_cart catalog cart item_name quantity =
        ("ADDED|" ++ item.name ++ "|" ++ toString quantity,
         cart ++ [CartItem.mk item.name quantity item.price])) := by
  cases hl : addLoop (pyLower item_name) quantity cart with
  | none =>
    right
    have hcart := (addLoop_eq_none_iff _ _ _).mp hl
    exact ⟨hcart, add_to_cart_added catalog cart item_name quantity item hfind hcart⟩
  | some r =>
    left
    obtain ⟨pre, ci, post, hcart, hpre, hci, hr⟩ := addLoop_eq_some _ _ _ _ hl
    subst hcart
    exact ⟨pre, ci, post, rfl, hpre, hci,
      add_to_cart_updated catalog item_name quantity item hfind pre ci post hpre hci⟩

theorem add_to_cart_no_quantity_validation_witness :
    (∃ pre ci post, ([] : List CartItem) = pre ++ ci :: post ∧
      (∀ cj ∈ pre, pyLower cj.name ≠ pyLower "milk") ∧
      pyLower ci.name = pyLower "milk" ∧
      add_to_cart [CatalogItem.mk "Milk" 10] [] "milk" (-2) =
        ("UPDATED|" ++ ci.name ++ "|" ++ toString (ci.quantity + (-2)),
         pre ++ { ci with quantity := ci.quantity + (-2) } :: post)) ∨
    ((∀ ci ∈ ([] : List CartItem), pyLower ci.name ≠ pyLower "milk") ∧
      add_to_cart [CatalogItem.mk "Milk" 10] [] "milk" (-2) =
        ("ADDED|" ++ (CatalogItem.mk "Milk" 10).name ++ "|" ++ toString (-2 : Int),
         [] ++ [CartItem.mk (CatalogItem.mk "Milk" 10).name (-2)
                  (CatalogItem.mk "Milk" 10).price])) :=
  add_to_cart_no_quantity_validation [CatalogItem.mk "Milk" 10] [] "milk" (-2)
    (CatalogItem.mk "Milk" 10) rfl

/-- Adding a catalog item twice to a cart that did not contain it. -/
theorem add_to_cart_twice_aux (catalog : List CatalogItem) (cart : List CartItem)
    (s1 s2 : String) (q1 q2 : Int) (item : CatalogItem)
    (hfind : catalog.find? (fun e => pyLower e.name == pyLower s1) = some item)
    (hs : pyLower s2 = pyLower s1)
    (hcart : ∀ ci ∈ cart, pyLower ci.name ≠ pyLower s1) :
    (add_to_cart catalog (add_to_cart catalog cart s1 q1).2 s2 q2).2 =
      cart ++ [CartItem.mk item.name (q1 + q2) item.price] ∧
    ((add_to_cart catalog (add_to_cart catalog cart s1 q1).2 s2 q2).2.countP
      (fun ci => pyLower ci.name == pyLower s1)) = 1 := by
  have hitem : pyLower item.name = pyLower s1 := by
    have := List.find?_some hfind
    simpa using this
  have h1 : (add_to_cart catalog cart s1 q1).2 =
      cart ++ [CartItem.mk item.name q1 item.price] := by
    rw [add_to_cart_added catalog cart s1 q1 item hfind hcart]
  have hfind2 : catalog.find? (fun e => pyLower e.name == pyLower s2) = some item := by
    rw [hs]
    exact hfind
  have h2 : add_to_cart catalog (cart ++ [CartItem.mk item.name q1 item.price]) s2 q2 =
      ("UPDATED|" ++ item.name ++ "|" ++ toString (q1 + q2),
       cart ++ [CartItem.mk item.name (q1 + q2) item.price]) := by
    have := add_to_cart_updated catalog s2 q2 item hfind2 cart
      (CartItem.mk item.name q1 item.price) []
      (fun cj hcj => by rw [hs]; exact hcart cj hcj)
      (by rw [hs]; exact hitem)
    simpa using this
  rw [h1, h2]
  refine ⟨rfl, ?_⟩
  rw [List.countP_append, List.countP_eq_zero.mpr ?_]
  · simp [List.countP_cons, hitem]
  · intro ci hci
    simpa using hcart ci hci

/-- C6: starting from a cart without the item, adding a catalog item with
quantity `q1` and then again with quantity `q2`, under any capitalizations
of its name, leaves the cart with exactly one line for that item, carrying
quantity `q1 + q2` and the catalog price. -/
theorem add_to_cart_twice (catalog : List CatalogItem) (cart : List CartItem)
    (s1 s2 : String) (q1 q2 : Int) (item : CatalogItem)
    (hfind : catalog.find? (fun e => pyLower e.name == pyLower s1) = some item)
    (hs : pyLower s2 = pyLower s1)
    (hcart : ∀ ci ∈ cart, pyLower ci.name ≠ pyLower s1) :
    (add_to_cart catalog (add_to_cart catalog cart s1 q1).2 s2 q2).2 =
      cart ++ [CartItem.mk item.name (q1 + q2) item.price] ∧
    ((add_to_cart catalog (add_to_cart catalog cart s1 q1).2 s2 q2).2.countP
      (fun ci => pyLower ci.name == pyLower s1)) = 1 :=
  add_to_cart_twice_aux catalog cart s1 s2 q1 q2 item hfind hs hcart

theorem add_to_cart_twice_witness :
    (add_to_cart [CatalogItem.mk "Milk" 10]
      (add_to_cart [CatalogItem.mk "Milk" 10] [] "MILK" 2).2 "milk" 1).2 =
      [] ++ [CartItem.mk "Milk" (2 + 1) (10 : ℚ)] ∧
    ((add_to_cart [CatalogItem.mk "Milk" 10]
      (add_to_cart [CatalogItem.mk "Milk" 10] [] "MILK" 2).2 "milk" 1).2.countP
      (fun ci => pyLower ci.name == pyLower "MILK")) = 1 :=
  add_to_cart_twice [CatalogItem.mk "Milk" 10] [] "MILK" "milk" 2 1
    (CatalogItem.mk "Milk" 10) rfl rfl (by simp)

theorem addLoop_map_pyLower_name (name : String) (q : Int) (cart : List CartItem)
    (r : String × List CartItem) (h : addLoop name q cart = some r) :
    r.2.map (fun ci => pyLower ci.name) = cart.map (fun ci => pyLower ci.name) := by
  obtain ⟨pre, ci, post, hcart, _, _, hr⟩ := addLoop_eq_some _ _ _ _ h
  subst hcart
  subst hr
  simp

theorem place_order_cart_eq_nil (cart : List CartItem) (ledger : List Order)
    (now : Nat) (ts : String) : (place_order cart ledger now ts).cart = [] := by
  cases cart <;> rfl

theorem add_to_cart_preserves_unique (catalog : List CatalogItem)
    (cart : List CartItem) (s : String) (q : Int)
    (h : cart.Pairwise (fun a b => pyLower a.name ≠ pyLower b.name)) :
    (add_to_cart catalog cart s q).2.Pairwise
      (fun a b => pyLower a.name ≠ pyLower b.name) := by
  cases hfind : catalog.find? (fun x => pyLower x.name == pyLower s) with
  | none =>
    have heq : (add_to_cart catalog cart s q).2 = cart := by
      simp [add_to_cart, hfind]
    rw [heq]
    exact h
  | some item =>
    cases hl : addLoop (pyLower s) q cart with
    | some r =>
      have heq : (add_to_cart catalog cart s q).2 = r.2 := by
        simp [add_to_cart, hfind, hl]
      have hmap := addLoop_map_pyLower_name _ _ _ _ hl
      rw [heq]
      rw [← List.pairwise_map (f := fun ci : CartItem => pyLower ci.name)
        (R := fun a b => a ≠ b)] at h ⊢
      rw [hmap]
      exact h
    | none =>
      have heq : (add_to_cart catalog cart s q).2 =
          cart ++ [CartItem.mk item.name q item.price] := by
        simp [add_to_cart, hfind, hl]
      have hitem : pyLower item.name = pyLower s := by
        have := List.find?_some hfind
        simpa using this
      have hcart := (addLoop_eq_none_iff _ _ _).mp hl
      rw [heq, List.pairwise_append]
      refine ⟨h, by simp, ?_⟩
      intro a ha b hb
      simp only [List.mem_singleton] at hb
      subst hb
      simp only
      rw [hitem]
      exact hcart a ha

theorem remove_from_cart_preserves_unique (cart : List CartItem) (s : String)
    (h : cart.Pairwise (fun a b => pyLower a.name ≠ pyLower b.name)) :
    (remove_from_cart cart s).2.Pairwise
      (fun a b => pyLower a.name ≠ pyLower b.name) :=
  h.sublist (List.filter_sublist cart)

/-- C5: in every cart state reachable from the empty cart by `add_to_cart`,
`remove_from_cart` and `place_order` calls, no two cart lines have names
that are equal after lowercasing. -/
theorem cart_names_unique (c : List CartItem) (h : SessionReach c) :
    c.Pairwise (fun a b => pyLower a.name ≠ pyLower b.name) := by
  induction h with
  | empty => simp
  | add catalog c s q _ ih => exact add_to_cart_preserves_unique catalog c s q ih
  | remove c s _ ih => exact remove_from_cart_preserves_unique c s ih
  | place c ledger now ts _ _ =>
    rw [place_order_cart_eq_nil]
    simp

theorem cart_names_unique_witness :
    ((add_to_cart [CatalogItem.mk "Milk" 10, CatalogItem.mk "Bread" 5]
        (add_to_cart [CatalogItem.mk "Milk" 10, CatalogItem.mk "Bread" 5]
          [] "milk" 2).2 "bread" 1).2).Pairwise
      (fun a b => pyLower a.name ≠ pyLower b.name) :=
  cart_names_unique _
    (SessionReach.add _ _ "bread" 1 (SessionReach.add _ _ "milk" 2 SessionReach.empty))

theorem add_to_cart_mem_provenance (catalog : List CatalogItem)
    (cart : List CartItem) (s : String) (q : Int) (x : CartItem)
    (hx : x ∈ (add_to_cart catalog cart s q).2) :
    (∃ ci ∈ cart, x.name = ci.name ∧ x.price = ci.price) ∨
    (∃ item ∈ catalog, x.name = item.name ∧ x.price = item.price) := by
  cases hfind : catalog.find? (fun e => pyLower e.name == pyLower s) with
  | none =>
    have heq : (add_to_cart catalog cart s q).2 = cart := by
      simp [add_to_cart, hfind]
    rw [heq] at hx
    exact Or.inl ⟨x, hx, rfl, rfl⟩
  | some item =>
    cases hl : addLoop (pyLower s) q cart with
    | some r =>
      have heq : (add_to_cart catalog cart s q).2 = r.2 := by
        simp [add_to_cart, hfind, hl]
      rw [heq] at hx
      obtain ⟨pre, ci, post, hcart, _, _, hr⟩ := addLoop_eq_some _ _ _ _ hl
      subst hcart
      subst hr
      simp only [List.mem_append, List.mem_cons] at hx
      rcases hx with hx | hx | hx
      · exact Or.inl ⟨x, by simp [hx], rfl, rfl⟩
      · subst hx
        exact Or.inl ⟨ci, by simp, rfl, rfl⟩
      · exact Or.inl ⟨x, by simp [hx], rfl, rfl⟩
    | none =>
      have heq : (add_to_cart catalog cart s q).2 =
          cart ++ [CartItem.mk item.name q item.price] := by
        simp [add_to_cart, hfind, hl]
      rw [heq] at hx
      simp only [List.mem_append, List.mem_singleton] at hx
      rcases hx with hx | hx
      · exact Or.inl ⟨x, hx, rfl, rfl⟩
      · subst hx
        exact Or.inr ⟨item, List.mem_of_find?_eq_some hfind, rfl, rfl⟩

/-- C10: in every cart state reachable from the empty cart by `add_to_cart`
and `remove_from_cart` calls against a fixed catalog, every cart line takes
its name (in the stored, canonical case) and its price from some catalog
entry. -/
theorem cart_lines_from_catalog (catalog : List CatalogItem) (c : List CartItem)
    (h : CartReach catalog c) :
    ∀ x ∈ c, ∃ item ∈ catalog, x.name = item.name ∧ x.price = item.price := by
  induction h with
  | empty => simp
  | add c s q _ ih =>
    intro x hx
    rcases add_to_cart_mem_provenance catalog c s q x hx with ⟨ci, hci, hn, hp⟩ | hit
    · obtain ⟨item, hitem, hn2, hp2⟩ := ih ci hci
      exact ⟨item, hitem, hn.trans hn2, hp.trans hp2⟩
    · exact hit
  | remove c s _ ih =>
    intro x hx
    exact ih x (List.mem_of_mem_filter hx)

theorem cart_lines_from_catalog_witness :
    ∃ item ∈ [CatalogItem.mk "Milk" 10],
      (CartItem.mk "Milk" 2 10).name = item.name ∧
      (CartItem.mk "Milk" 2 10).price = item.price :=
  cart_lines_from_catalog [CatalogItem.mk "Milk" 10] _
    (CartReach.add [] "MILK" 2 CartReach.empty)
    (CartItem.mk "Milk" 2 10) (by decide)

theorem end_to_end_milk_example_cex :
    (add_to_cart [CatalogItem.mk "MILK" (1/1000)]
        (add_to_cart [CatalogItem.mk "MILK" (1/1000)] [] "Milk" 2).2 "milk" 1).2 ≠
      [CartItem.mk "Milk" 3 (1/1000)] ∧
    ((place_order
        (add_to_cart [CatalogItem.mk "MILK" (1/1000)]
          (add_to_cart [CatalogItem.mk "MILK" (1/1000)] [] "Milk" 2).2 "milk" 1).2
        [] 0 "t").ledger.map Order.total) ≠ [3 * (1/1000 : ℚ)] := by
  have hc : (add_to_cart [CatalogItem.mk "MILK" (1/1000)]
      (add_to_cart [CatalogItem.mk "MILK" (1/1000)] [] "Milk" 2).2 "milk" 1).2 =
      [CartItem.mk "MILK" 3 (1/1000)] := by
    have h := (add_to_cart_twice_aux [CatalogItem.mk "MILK" (1/1000)] [] "Milk" "milk"
      2 1 (CatalogItem.mk "MILK" (1/1000)) rfl rfl (by simp)).1
    simpa using h
  rw [hc]
  constructor
  · simp
  · obtain ⟨o, h1, h2, _, _, _, _⟩ :=
      place_order_nonempty [CartItem.mk "MILK" 3 (1/1000)] [] 0 "t" (by simp)
    have hsum : (([CartItem.mk "MILK" 3 (1/1000)]).map
        (fun x => x.price * (x.quantity : ℚ))).sum = (3/1000 : ℚ) := by
      norm_num
    have hne : round2 ((3 : ℚ)/1000) ≠ 3 * (1/1000 : ℚ) := by
      norm_num [round2, round_eq]
    rw [h1]
    simp only [List.nil_append, List.map_cons, List.map_nil]
    rw [h2, hsum]
    intro hbad
    injection hbad with hh ht
    exact hne hh

/-- C9 (amended): with a catalog entry matching "milk" case-insensitively,
`add_to_cart("Milk", 2)` then `add_to_cart("milk", 1)` from an empty cart
yields the single line whose name is the stored catalog name, whose
quantity is 3 and whose price is the catalog price; a subsequent
`place_order` appends exactly one ledger record, with total
`round2(3 × price)`, and empties the cart. -/
theorem end_to_end_milk_example (catalog : List CatalogItem) (item : CatalogItem)
    (hfind : catalog.find? (fun e => pyLower e.name == pyLower "Milk") = some item)
    (ledger : List Order) (now : Nat) (ts : String) :
    (add_to_cart catalog (add_to_cart catalog [] "Milk" 2).2 "milk" 1).2 =
      [CartItem.mk item.name 3 item.price] ∧
    ∃ o : Order,
      (place_order [CartItem.mk item.name 3 item.price] ledger now ts).ledger =
        ledger ++ [o] ∧
      o.total = round2 (item.price * 3) ∧
      (place_order [CartItem.mk item.name 3 item.price] ledger now ts).cart = [] := by
  constructor
  · have h := (add_to_cart_twice_aux catalog [] "Milk" "milk" 2 1 item hfind rfl
      (by simp)).1
    simpa using h
  · obtain ⟨o, h1, h2, _, _, _, h6⟩ :=
      place_order_nonempty [CartItem.mk item.name 3 item.price] ledger now ts (by simp)
    refine ⟨o, h1, ?_, h6⟩
    rw [h2]
    norm_num

theorem end_to_end_milk_example_witness :
    (add_to_cart [CatalogItem.mk "Milk" 42]
        (add_to_cart [CatalogItem.mk "Milk" 42] [] "Milk" 2).2 "milk" 1).2 =
      [CartItem.mk (CatalogItem.mk "Milk" 42).name 3 (CatalogItem.mk "Milk" 42).price] ∧
    ∃ o : Order,
      (place_order [CartItem.mk (CatalogItem.mk "Milk" 42).name 3
          (CatalogItem.mk "Milk" 42).price] [] 0 "t").ledger = [] ++ [o] ∧
      o.total = round2 ((CatalogItem.mk "Milk" 42).price * 3) ∧
      (place_order [CartItem.mk (CatalogItem.mk "Milk" 42).name 3
          (CatalogItem.mk "Milk" 42).price] [] 0 "t").cart = [] :=
  end_to_end_milk_example [CatalogItem.mk "Milk" 42] (CatalogItem.mk "Milk" 42)
    rfl [] 0 "t"
